import Mathlib

/-!
Verification development for the textweet repository: an iMessage-to-X
posting daemon.  The definitions below are a shallow embedding of the
TypeScript source:

* `MessageCache`   — src/message-cache.ts (the dedup ledger; two JS `Set`s
  of numeric ids, persisted as two lists plus a timestamp).
* `MessageProcessor` functions — src/message-processor.ts (`processMessage`,
  `extractMediaPaths`, `validateMessage`).  JS strings are modelled as
  `List Char` so that `.length`, `.substring`, `.trim` have exact list
  counterparts.
* `IMessageMonitor.getNewMessages` — src/imessage-monitor.ts; the SQL
  result (newest-first window) is an input list of rows, attachments come
  from a lookup function.
* the `main` poll loop — src/index.ts; external calls (image conversion,
  media upload, tweet posting) are an environment of fallible functions
  (`Except` models a JS throw) and each performed call is recorded as an
  `Event` so that theorems can speak about what the publisher adapter was
  asked to do and in which order.

Message ids: everywhere in the source a message id is
`ROWID.toString()` and the cache parses it back with `parseInt(id, 10)`;
this round trip is the identity on the underlying number, so ids are
modelled directly as `Nat`.
-/

namespace Textweet

/-- One attachment row as returned by the `attachment` table join
(src/imessage-monitor.ts, `getMessageAttachments`).  The JS fields can be
`null`/`undefined`/empty, so they are `Option String` here; the code's
truthiness tests are modelled by `truthyStr`. -/
structure Attachment where
  filename : Option String
  mime_type : Option String
  transfer_name : Option String
deriving DecidableEq, Repr

/-- `IMessageData` from src/message-processor.ts.  `text` is the raw
message text (JS string or null/undefined). -/
structure IMessageData where
  id : Nat
  text : Option (List Char)
  handle_id : Nat
  date : Int
  is_from_me : Bool
  attachments : List Attachment
deriving DecidableEq, Repr

/-- `ProcessedMessage` from src/message-processor.ts. -/
structure ProcessedMessage where
  text : List Char
  mediaPaths : List String
  originalText : List Char
  wasTruncated : Bool
deriving DecidableEq, Repr

/-- JS string truthiness on an optional string: `undefined`, `null` and
the empty string are falsy. -/
def truthyStr : Option String → Option String
  | none => none
  | some s => if s = "" then none else some s

/-- JS `String.prototype.trim`: drop whitespace from both ends. -/
def jsTrim (s : List Char) : List Char :=
  ((s.dropWhile Char.isWhitespace).reverse.dropWhile Char.isWhitespace).reverse

/-- The truncation marker appended by `processMessage`
(src/message-processor.ts line 231): the single horizontal-ellipsis
character. -/
def truncationMarker : List Char := ['…']

/-- `supportedImageTypes` from `extractMediaPaths`
(src/message-processor.ts lines 263-271). -/
def supportedImageTypes : List String :=
  ["image/jpeg", "image/jpg", "image/png", "image/gif", "image/webp",
   "image/heic", "image/heif"]

/-- JS `String.prototype.toLowerCase`, character by character. -/
def lowerStr (s : String) : String := String.mk (s.data.map Char.toLower)

/-- JS `path.startsWith(tilde)`: the first character is `~`. -/
def startsTilde (p : String) : Bool :=
  match p.data with
  | [] => false
  | c :: _ => c = '~'

/-- Home-directory expansion in `extractMediaPaths`: a path starting with
`~` has that first character replaced by the home directory
(`path.replace(char, homedir())` replaces the first occurrence, which the
`startsWith` guard places at position 0). -/
def resolvePath (home : String) (p : String) : String :=
  if startsTilde p = true then home ++ String.mk (p.data.drop 1) else p

/-- One step of the loop in `extractMediaPaths`
(src/message-processor.ts lines 275-292): keep the attachment iff its
MIME type is truthy and (lowercased) in `supportedImageTypes` and it has
a truthy `filename` or, failing that, a truthy `transfer_name`; the kept
path gets `~` expanded. -/
def extractAttachmentPath (home : String) (a : Attachment) : Option String :=
  match truthyStr a.mime_type with
  | none => none
  | some mt =>
    if supportedImageTypes.contains (lowerStr mt) then
      match truthyStr a.filename with
      | some p => some (resolvePath home p)
      | none =>
        match truthyStr a.transfer_name with
        | some p => some (resolvePath home p)
        | none => none
    else none

/-- `MessageProcessor.extractMediaPaths` (src/message-processor.ts
lines 258-295): collect, in source order, the resolved paths of the
supported image attachments. -/
def extractMediaPaths (home : String) (m : IMessageData) : List String :=
  m.attachments.filterMap (extractAttachmentPath home)

/-- `MessageProcessor.processMessage` (src/message-processor.ts
lines 223-251): trim the text (`message.text?.trim() || ''`), truncate to
`maxLength` with the marker when too long
(`text.substring(0, maxLength - 1) + marker`), extract media paths and
cap them at 4 (`mediaPaths.splice(4)` keeps the first 4). -/
def processMessage (maxLength : Nat) (home : String) (m : IMessageData) :
    ProcessedMessage :=
  let text0 := jsTrim (m.text.getD [])
  let tw : List Char × Bool :=
    if maxLength < text0.length then
      (text0.take (maxLength - 1) ++ truncationMarker, true)
    else (text0, false)
  let mediaPaths0 := extractMediaPaths home m
  let mediaPaths := if 4 < mediaPaths0.length then mediaPaths0.take 4 else mediaPaths0
  { text := tw.1, mediaPaths := mediaPaths, originalText := text0,
    wasTruncated := tw.2 }

/-- `MessageProcessor.validateMessage` (src/message-processor.ts
lines 302-315): false iff the text is empty and there are no media
paths. -/
def validateMessage (pm : ProcessedMessage) : Bool :=
  if pm.text = [] ∧ pm.mediaPaths.length = 0 then false else true

/-- `MessageCache` state (src/message-cache.ts): two JS `Set`s of numeric
message ids. -/
structure MessageCache where
  processedIds : Finset Nat
  failedIds : Finset Nat

/-- A fresh cache (constructor with no existing cache file). -/
def MessageCache.empty : MessageCache := ⟨∅, ∅⟩

/-- `MessageCache.markProcessed` (lines 65-71): add to `processedIds`,
remove from `failedIds` if it was there.  (The `save()` call is modelled
separately by `MessageCache.save`.) -/
def MessageCache.markProcessed (c : MessageCache) (id : Nat) : MessageCache :=
  ⟨insert id c.processedIds, c.failedIds.erase id⟩

/-- `MessageCache.markFailed` (lines 76-82): add to `failedIds` and also
to `processedIds` so the id is skipped from then on. -/
def MessageCache.markFailed (c : MessageCache) (id : Nat) : MessageCache :=
  ⟨insert id c.processedIds, insert id c.failedIds⟩

/-- `MessageCache.isProcessed` (lines 87-90): true iff the id is in the
processed set or in the failed set. -/
def MessageCache.isProcessed (c : MessageCache) (id : Nat) : Bool :=
  decide (id ∈ c.processedIds) || decide (id ∈ c.failedIds)

/-- `MessageCache.isFailed` (lines 95-98). -/
def MessageCache.isFailed (c : MessageCache) (id : Nat) : Bool :=
  decide (id ∈ c.failedIds)

/-- `MessageCache.getProcessedCount` (lines 103-105): size of the
processed set. -/
def MessageCache.getProcessedCount (c : MessageCache) : Nat :=
  c.processedIds.card

/-- `MessageCache.getFailedCount` (lines 110-112). -/
def MessageCache.getFailedCount (c : MessageCache) : Nat :=
  c.failedIds.card

/-- The JSON document written by `MessageCache.save` (lines 49-60): the
two id sets as lists (`Array.from`) plus a timestamp. -/
structure CacheData where
  processed : List Nat
  failed : List Nat
  lastUpdated : String

/-- `MessageCache.save` (lines 49-60): serialise the two sets as lists
(`Array.from`; enumerated here in ascending order, the order is not
observable after reloading) together with the `lastUpdated` timestamp
(`now`, an input here). -/
def MessageCache.save (c : MessageCache) (now : String) : CacheData :=
  ⟨c.processedIds.sort (fun a b => a ≤ b), c.failedIds.sort (fun a b => a ≤ b), now⟩

/-- `MessageCache.load` (lines 29-44) applied to a parsed cache file: a
fresh instance rebuilds its two sets from the persisted lists
(`new Set(data.processed)`, `new Set(data.failed)`). -/
def MessageCache.loadFrom (d : CacheData) : MessageCache :=
  ⟨d.processed.toFinset, d.failed.toFinset⟩

/-- Cache states reachable from the empty cache by `markProcessed` /
`markFailed` calls. -/
inductive ReachableCache : MessageCache → Prop where
  | empty : ReachableCache MessageCache.empty
  | markProcessed (c : MessageCache) (id : Nat) :
      ReachableCache c → ReachableCache (c.markProcessed id)
  | markFailed (c : MessageCache) (id : Nat) :
      ReachableCache c → ReachableCache (c.markFailed id)

/-- One row of the message query in `IMessageMonitor.getNewMessages`
(src/imessage-monitor.ts lines 118-131).  The SQL returns at most 10 rows
for the target handle with `is_from_me = 1`, ordered by `date`
descending (newest first); that result list is an input to the model. -/
structure MessageRow where
  rowid : Nat
  text : Option (List Char)
  handle_id : Nat
  date : Int
  is_from_me : Bool
deriving DecidableEq, Repr

/-- `IMessageMonitor.getNewMessages` (src/imessage-monitor.ts
lines 136-158) applied to the query result `rows` (newest-first): keep, in
row order, every row whose id the cache has not resolved
(`!cache.isProcessed`), building an `IMessageData` with
`text = msg.text || ''` and the attachments looked up by row id. -/
def getNewMessages (cache : MessageCache) (rows : List MessageRow)
    (atts : Nat → List Attachment) : List IMessageData :=
  rows.filterMap (fun msg =>
    if cache.isProcessed msg.rowid = true then none
    else some { id := msg.rowid, text := some (msg.text.getD []),
                handle_id := msg.handle_id, date := msg.date,
                is_from_me := msg.is_from_me, attachments := atts msg.rowid })

/-- External calls made while processing one record (src/index.ts
lines 104-166).  Lean models each fallible call as a function returning
`Except`; an `Except.error` models a JS throw. -/
structure PublisherEnv where
  processImage : String → Except String String
  uploadMedia : String → Except String String
  postTweet : List Char → Option (List String) → Except String String

/-- Observable calls of one poll cycle, tagged with the id of the record
being processed: the two publisher-adapter calls (`uploadMedia` with the
source media path and the converter's output path, `postTweet` with the
text and optional media-id payload) and the two ledger calls. -/
inductive Event where
  | uploadMedia (rid : Nat) (srcPath : String) (uploadPath : String)
  | postTweet (rid : Nat) (text : List Char) (mediaIds : Option (List String))
  | markAsProcessed (rid : Nat)
  | markAsFailed (rid : Nat)
deriving DecidableEq, Repr

/-- The record id an event belongs to. -/
def Event.rid : Event → Nat
  | .uploadMedia r _ _ => r
  | .postTweet r _ _ => r
  | .markAsProcessed r => r
  | .markAsFailed r => r

/-- The ids of the `postTweet` events of a trace, in order. -/
def postedIds (evs : List Event) : List Nat :=
  evs.filterMap (fun e =>
    match e with
    | .postTweet r _ _ => some r
    | _ => none)

/-- One pass of the media-upload loop body (src/index.ts lines 126-136)
for one path, events part: if conversion (`processImage`) throws, the
catch skips the path and `uploadMedia` is never called; otherwise
`uploadMedia` is invoked on the converted path (whether or not it then
throws). -/
def uploadStepEvents (env : PublisherEnv) (rid : Nat) (p : String) : List Event :=
  match env.processImage p with
  | Except.error _ => []
  | Except.ok up => [Event.uploadMedia rid p up]

/-- One pass of the media-upload loop body for one path, collected-id
part: the media id is pushed onto `mediaIds` only when both conversion
and upload succeed; a throw in either step is caught and the path
contributes nothing. -/
def uploadStepResult (env : PublisherEnv) (p : String) : Option String :=
  match env.processImage p with
  | Except.error _ => none
  | Except.ok up =>
    match env.uploadMedia up with
    | Except.ok mid => some mid
    | Except.error _ => none

/-- The media-upload loop of `main` (src/index.ts lines 125-137): for each
media path independently, convert then upload; a throw in either step is
caught, logged and the attachment is skipped — it never aborts the
record.  Returns the emitted events and the collected media ids of the
successful uploads, in order. -/
def uploadLoop (env : PublisherEnv) (rid : Nat) :
    List String → List Event × List String
  | [] => ([], [])
  | p :: rest =>
    let tail := uploadLoop env rid rest
    (uploadStepEvents env rid p ++ tail.1,
     (uploadStepResult env p).toList ++ tail.2)

/-- The media ids the upload loop collects: exactly the uploads where both
conversion and upload succeed, in path order. -/
def uploadSuccesses (env : PublisherEnv) (paths : List String) : List String :=
  paths.filterMap (uploadStepResult env)

/-- The second tweet argument in `main` (src/index.ts line 150):
`mediaIds.length > 0 ? mediaIds : undefined`. -/
def postArgs (mediaIds : List String) : Option (List String) :=
  if 0 < mediaIds.length then some mediaIds else none

/-- Result of processing one record in the poll loop: the emitted events,
the updated cache, and whether a tweet was successfully posted (which is
what resets the consecutive-error counter, src/index.ts line 159). -/
structure RecordResult where
  events : List Event
  cache : MessageCache
  posted : Bool

/-- The per-record body of `main`'s loop (src/index.ts lines 104-166):
process and validate the message (invalid → `markAsProcessed` and
continue); run the upload loop; if there were media paths but no upload
succeeded and the text is empty, skip with `markAsProcessed`; otherwise
call `postTweet` — on success `markAsProcessed`, on a throw the catch
block calls `markAsFailed`. -/
def processRecord (env : PublisherEnv) (maxLength : Nat) (home : String)
    (cache : MessageCache) (m : IMessageData) : RecordResult :=
  let pm := processMessage maxLength home m
  if validateMessage pm = true then
    let up := uploadLoop env m.id pm.mediaPaths
    if 0 < pm.mediaPaths.length ∧ up.2.length = 0 ∧ pm.text = [] then
      { events := up.1 ++ [Event.markAsProcessed m.id],
        cache := cache.markProcessed m.id, posted := false }
    else
      match env.postTweet pm.text (postArgs up.2) with
      | Except.ok _ =>
        { events := up.1 ++ [Event.postTweet m.id pm.text (postArgs up.2),
                             Event.markAsProcessed m.id],
          cache := cache.markProcessed m.id, posted := true }
      | Except.error _ =>
        { events := up.1 ++ [Event.postTweet m.id pm.text (postArgs up.2),
                             Event.markAsFailed m.id],
          cache := cache.markFailed m.id, posted := false }
  else
    { events := [Event.markAsProcessed m.id],
      cache := cache.markProcessed m.id, posted := false }

/-- Result of the `for (const rawMessage of newMessages)` loop. -/
structure BatchResult where
  events : List Event
  cache : MessageCache
  anyPosted : Bool

/-- The batch loop of `main` (src/index.ts lines 104-167): records are
processed strictly in the order of the fetched list — there is no
reordering or reversal between the fetch and this loop. -/
def processBatch (env : PublisherEnv) (maxLength : Nat) (home : String) :
    MessageCache → List IMessageData → BatchResult
  | cache, [] => { events := [], cache := cache, anyPosted := false }
  | cache, m :: rest =>
    let r := processRecord env maxLength home cache m
    let b := processBatch env maxLength home r.cache rest
    { events := r.events ++ b.events, cache := b.cache,
      anyPosted := r.posted || b.anyPosted }

/-- `MAX_CONSECUTIVE_ERRORS` (src/index.ts line 96). -/
def maxConsecutiveErrors : Nat := 5

/-- Mutable state of `main`'s polling loop: the consecutive-error counter
(line 95), the shutdown flag (line 73) and the message cache held by the
monitor. -/
structure LoopState where
  consecutiveErrors : Nat
  isShuttingDown : Bool
  cache : MessageCache

/-- One poll cycle together with the sleep chosen before the next one. -/
structure CycleResult where
  state : LoopState
  events : List Event
  sleepMs : Nat

/-- One iteration of the `while (!isShuttingDown)` loop (src/index.ts
lines 98-183).  `fetched` is the outcome of awaiting
`imessageMonitor.getNewMessages()`: on a normal completion the batch is
processed and the loop sleeps for `interval`; the error counter becomes 0
if some tweet was posted in the cycle and is unchanged otherwise.  If the
fetch throws, the catch block increments `consecutiveErrors`, initiates
shutdown once the counter reaches `MAX_CONSECUTIVE_ERRORS`, and sleeps
for `interval * 2` for this cycle only. -/
def runCycle (env : PublisherEnv) (maxLength : Nat) (home : String)
    (interval : Nat) (st : LoopState)
    (fetched : Except String (List IMessageData)) : CycleResult :=
  match fetched with
  | Except.ok batch =>
    let b := processBatch env maxLength home st.cache batch
    { state := { consecutiveErrors :=
                   if b.anyPosted = true then 0 else st.consecutiveErrors,
                 isShuttingDown := st.isShuttingDown, cache := b.cache },
      events := b.events, sleepMs := interval }
  | Except.error _ =>
    let ce := st.consecutiveErrors + 1
    { state := { consecutiveErrors := ce,
                 isShuttingDown :=
                   if maxConsecutiveErrors ≤ ce then true else st.isShuttingDown,
                 cache := st.cache },
      events := [], sleepMs := interval * 2 }

/-- The polling loop run over a list of successive fetch outcomes: the
`while (!isShuttingDown)` guard stops the loop once shutdown was
initiated. -/
def runLoop (env : PublisherEnv) (maxLength : Nat) (home : String)
    (interval : Nat) : LoopState →
    List (Except String (List IMessageData)) → LoopState
  | st, [] => st
  | st, f :: fs =>
    if st.isShuttingDown = true then st
    else runLoop env maxLength home interval
      (runCycle env maxLength home interval st f).state fs

/-- Fixture: an environment in which every external call succeeds. -/
def okEnv : PublisherEnv :=
  { processImage := fun p => Except.ok p,
    uploadMedia := fun p => Except.ok ("m_" ++ p),
    postTweet := fun _ _ => Except.ok "900" }

/-- Fixture: conversion and upload succeed except that uploading the
second picture fails; posting succeeds. -/
def envFailSecondUpload : PublisherEnv :=
  { processImage := fun p => Except.ok p,
    uploadMedia := fun p =>
      if p = "/Users/u/b.png" then Except.error "upload failed"
      else Except.ok ("m_" ++ p),
    postTweet := fun _ _ => Except.ok "900" }

/-- Fixture: posting always throws. -/
def envPostFails : PublisherEnv :=
  { processImage := fun p => Except.ok p,
    uploadMedia := fun p => Except.ok ("m_" ++ p),
    postTweet := fun _ _ => Except.error "403" }

/-- Fixture: home directory used by the concrete examples. -/
def homeDir : String := "/Users/u"

/-- Fixture: a message with three supported picture attachments. -/
def msgThreePics : IMessageData :=
  ⟨7, some "pics".data, 1, 30, true,
   [⟨some "/Users/u/a.png", some "image/png", none⟩,
    ⟨some "/Users/u/b.png", some "image/png", none⟩,
    ⟨some "/Users/u/c.png", some "image/png", none⟩]⟩

/-- Fixture: a message with six attachments of an unsupported MIME type. -/
def msgSixPdfs : IMessageData :=
  ⟨9, some "docs".data, 1, 40, true,
   [⟨some "/d1.pdf", some "application/pdf", none⟩,
    ⟨some "/d2.pdf", some "application/pdf", none⟩,
    ⟨some "/d3.pdf", some "application/pdf", none⟩,
    ⟨some "/d4.pdf", some "application/pdf", none⟩,
    ⟨some "/d5.pdf", some "application/pdf", none⟩,
    ⟨some "/d6.pdf", some "application/pdf", none⟩]⟩

/-- Fixture: a message with six supported picture attachments. -/
def msgSixPngs : IMessageData :=
  ⟨8, none, 1, 40, true,
   [⟨some "/p1.png", some "image/png", none⟩,
    ⟨some "/p2.png", some "image/png", none⟩,
    ⟨some "/p3.png", some "image/png", none⟩,
    ⟨some "/p4.png", some "image/png", none⟩,
    ⟨some "/p5.png", some "image/png", none⟩,
    ⟨some "/p6.png", some "image/png", none⟩]⟩

/-- Fixture: a plain two-character text message without attachments. -/
def msgHi : IMessageData := ⟨3, some "hi".data, 1, 0, true, []⟩

/-- Fixture: a message with no text and no attachments. -/
def msgEmpty : IMessageData := ⟨5, some [], 1, 0, true, []⟩

/-- Fixture: a message whose text has 15 characters. -/
def msgFifteenChars : IMessageData :=
  ⟨11, some "abcdefghijklmno".data, 1, 0, true, []⟩

/-- Fixture: a message whose text has 5 characters. -/
def msgFiveChars : IMessageData := ⟨12, some "abcde".data, 1, 0, true, []⟩

/-- Fixture: a two-row query result, newest first (dates 20 then 10). -/
def rowsNewestFirst : List MessageRow :=
  [⟨2, some "hi".data, 1, 20, true⟩, ⟨1, some "yo".data, 1, 10, true⟩]

/-- Fixture: a one-row query result containing record 7. -/
def rowsWithSeven : List MessageRow := [⟨7, some "a".data, 1, 5, true⟩]

/-- Fixture: a cache where record 1 was posted and record 2 failed. -/
def sampleCache : MessageCache :=
  (MessageCache.empty.markProcessed 1).markFailed 2

/-- Fixture: five consecutive fetch failures. -/
def fiveErrors : List (Except String (List IMessageData)) :=
  List.replicate 5 (Except.error "db locked")

/-- Fixture: the loop state right after startup. -/
def freshState : LoopState := ⟨0, false, MessageCache.empty⟩

/-! ## Helper lemmas -/

lemma getNewMessages_excludes_resolved (cache : MessageCache)
    (rows : List MessageRow) (atts : Nat → List Attachment) (id : Nat)
    (h : cache.isProcessed id = true) :
    id ∉ (getNewMessages cache rows atts).map IMessageData.id := by
  induction rows with
  | nil => simp [getNewMessages]
  | cons r rs ih =>
    have ih' : id ∉ (rs.filterMap _).map IMessageData.id := ih
    simp only [getNewMessages, List.filterMap_cons]
    by_cases hp : cache.isProcessed r.rowid = true
    · rw [if_pos hp]
      exact ih'
    · rw [if_neg hp]
      simp only [List.map_cons, List.mem_cons, not_or]
      refine ⟨fun he => hp ?_, ih'⟩
      rw [← he]
      exact h

lemma getNewMessages_ids_sublist (cache : MessageCache)
    (rows : List MessageRow) (atts : Nat → List Attachment) :
    List.Sublist ((getNewMessages cache rows atts).map IMessageData.id)
      (rows.map MessageRow.rowid) := by
  induction rows with
  | nil => simp [getNewMessages]
  | cons r rs ih =>
    have ih' : List.Sublist ((rs.filterMap _).map IMessageData.id)
        (rs.map MessageRow.rowid) := ih
    simp only [getNewMessages, List.filterMap_cons, List.map_cons]
    by_cases hp : cache.isProcessed r.rowid = true
    · rw [if_pos hp]
      exact List.Sublist.cons r.rowid ih'
    · rw [if_neg hp]
      simp only [List.map_cons]
      exact List.Sublist.cons₂ r.rowid ih'

lemma uploadStepEvents_rid (env : PublisherEnv) (rid : Nat) (p : String)
    (e : Event) (he : e ∈ uploadStepEvents env rid p) : e.rid = rid := by
  revert he
  unfold uploadStepEvents
  cases env.processImage p with
  | error s => simp
  | ok up =>
    intro he
    simp only [List.mem_singleton] at he
    rw [he]
    rfl

lemma uploadStepEvents_src (env : PublisherEnv) (rid : Nat) (p : String)
    (r : Nat) (src up : String)
    (he : Event.uploadMedia r src up ∈ uploadStepEvents env rid p) : src = p := by
  revert he
  unfold uploadStepEvents
  cases env.processImage p with
  | error s => simp
  | ok u =>
    intro he
    simp only [List.mem_singleton, Event.uploadMedia.injEq] at he
    exact he.2.1

lemma uploadStepEvents_no_post (env : PublisherEnv) (rid : Nat) (p : String)
    (r : Nat) (t : List Char) (mids : Option (List String)) :
    Event.postTweet r t mids ∉ uploadStepEvents env rid p := by
  unfold uploadStepEvents
  cases env.processImage p with
  | error s => simp
  | ok up => simp

lemma uploadLoop_events_rid (env : PublisherEnv) (rid : Nat) :
    ∀ (ps : List String) (e : Event), e ∈ (uploadLoop env rid ps).1 → e.rid = rid := by
  intro ps
  induction ps with
  | nil => intro e he; simp [uploadLoop] at he
  | cons p rest ih =>
    intro e he
    simp only [uploadLoop, List.mem_append] at he
    rcases he with he | he
    · exact uploadStepEvents_rid env rid p e he
    · exact ih e he

lemma uploadLoop_src_mem (env : PublisherEnv) (rid : Nat) :
    ∀ (ps : List String) (r : Nat) (src up : String),
      Event.uploadMedia r src up ∈ (uploadLoop env rid ps).1 → src ∈ ps := by
  intro ps
  induction ps with
  | nil => intro r src up he; simp [uploadLoop] at he
  | cons p rest ih =>
    intro r src up he
    simp only [uploadLoop, List.mem_append] at he
    rcases he with he | he
    · rw [uploadStepEvents_src env rid p r src up he]
      exact List.mem_cons_self p rest
    · exact List.mem_cons_of_mem p (ih r src up he)

lemma uploadLoop_no_post (env : PublisherEnv) (rid : Nat) :
    ∀ (ps : List String) (r : Nat) (t : List Char) (mids : Option (List String)),
      Event.postTweet r t mids ∉ (uploadLoop env rid ps).1 := by
  intro ps
  induction ps with
  | nil => intro r t mids he; simp [uploadLoop] at he
  | cons p rest ih =>
    intro r t mids he
    simp only [uploadLoop, List.mem_append] at he
    rcases he with he | he
    · exact uploadStepEvents_no_post env rid p r t mids he
    · exact ih r t mids he

lemma uploadLoop_snd (env : PublisherEnv) (rid : Nat) :
    ∀ ps : List String, (uploadLoop env rid ps).2 = uploadSuccesses env ps := by
  intro ps
  induction ps with
  | nil => simp [uploadLoop, uploadSuccesses]
  | cons p rest ih =>
    simp only [uploadLoop, uploadSuccesses, List.filterMap_cons]
    cases uploadStepResult env p with
    | none => simpa [uploadSuccesses] using ih
    | some mid => simpa [uploadSuccesses] using ih

lemma postedIds_append (a b : List Event) :
    postedIds (a ++ b) = postedIds a ++ postedIds b := by
  simp [postedIds, List.filterMap_append]

lemma postedIds_uploadLoop (env : PublisherEnv) (rid : Nat)
    (ps : List String) : postedIds (uploadLoop env rid ps).1 = [] := by
  rw [List.eq_nil_iff_forall_not_mem]
  intro r hr
  simp only [postedIds, List.mem_filterMap] at hr
  obtain ⟨e, he, hr⟩ := hr
  cases e with
  | postTweet r2 t mids => exact uploadLoop_no_post env rid ps r2 t mids he
  | uploadMedia r2 s u => simp at hr
  | markAsProcessed r2 => simp at hr
  | markAsFailed r2 => simp at hr

lemma mem_postedIds_of_postTweet_mem (evs : List Event) (r : Nat)
    (t : List Char) (mids : Option (List String))
    (h : Event.postTweet r t mids ∈ evs) : r ∈ postedIds evs := by
  simp only [postedIds, List.mem_filterMap]
  exact ⟨Event.postTweet r t mids, h, rfl⟩

lemma processRecord_events_rid (env : PublisherEnv) (L : Nat) (home : String)
    (cache : MessageCache) (m : IMessageData) :
    ∀ e ∈ (processRecord env L home cache m).events, e.rid = m.id := by
  intro e he
  simp only [processRecord] at he
  split at he
  · split at he
    · simp only [List.mem_append, List.mem_singleton] at he
      rcases he with he | he
      · exact uploadLoop_events_rid env m.id _ e he
      · rw [he]; rfl
    · split at he
      · simp only [List.mem_append, List.mem_cons, List.not_mem_nil, or_false] at he
        rcases he with he | he | he
        · exact uploadLoop_events_rid env m.id _ e he
        · rw [he]; rfl
        · rw [he]; rfl
      · simp only [List.mem_append, List.mem_cons, List.not_mem_nil, or_false] at he
        rcases he with he | he | he
        · exact uploadLoop_events_rid env m.id _ e he
        · rw [he]; rfl
        · rw [he]; rfl
  · simp only [List.mem_singleton] at he
    rw [he]
    rfl

lemma processRecord_cache_resolved (env : PublisherEnv) (L : Nat) (home : String)
    (cache : MessageCache) (m : IMessageData) :
    (processRecord env L home cache m).cache.isProcessed m.id = true := by
  simp only [processRecord]
  split
  · split
    · simp [MessageCache.markProcessed, MessageCache.isProcessed]
    · split
      · simp [MessageCache.markProcessed, MessageCache.isProcessed]
      · simp [MessageCache.markFailed, MessageCache.isProcessed]
  · simp [MessageCache.markProcessed, MessageCache.isProcessed]

lemma postedIds_processRecord (env : PublisherEnv) (L : Nat) (home : String)
    (cache : MessageCache) (m : IMessageData) :
    postedIds (processRecord env L home cache m).events = []
    ∨ postedIds (processRecord env L home cache m).events = [m.id] := by
  simp only [processRecord]
  split
  · split
    · left
      rw [postedIds_append, postedIds_uploadLoop]
      simp [postedIds]
    · split
      · right
        rw [postedIds_append, postedIds_uploadLoop]
        simp [postedIds]
      · right
        rw [postedIds_append, postedIds_uploadLoop]
        simp [postedIds]
  · left
    simp [postedIds]

lemma processBatch_events_rid_mem (env : PublisherEnv) (L : Nat) (home : String) :
    ∀ (batch : List IMessageData) (cache : MessageCache) (e : Event),
      e ∈ (processBatch env L home cache batch).events →
      e.rid ∈ batch.map IMessageData.id := by
  intro batch
  induction batch with
  | nil => intro cache e he; simp [processBatch] at he
  | cons m rest ih =>
    intro cache e he
    simp only [processBatch, List.mem_append] at he
    simp only [List.map_cons, List.mem_cons]
    rcases he with he | he
    · left
      exact processRecord_events_rid env L home cache m e he
    · right
      exact ih _ e he

lemma postedIds_processBatch_sublist (env : PublisherEnv) (L : Nat) (home : String) :
    ∀ (batch : List IMessageData) (cache : MessageCache),
      List.Sublist (postedIds (processBatch env L home cache batch).events)
        (batch.map IMessageData.id) := by
  intro batch
  induction batch with
  | nil => intro cache; simp [processBatch, postedIds]
  | cons m rest ih =>
    intro cache
    simp only [processBatch, List.map_cons]
    rw [postedIds_append]
    rcases postedIds_processRecord env L home cache m with hpr | hpr
    · rw [hpr]
      simp only [List.nil_append]
      exact List.Sublist.cons m.id (ih _)
    · rw [hpr]
      simp only [List.singleton_append]
      exact List.Sublist.cons₂ m.id (ih _)

lemma runLoop_of_shutdown (env : PublisherEnv) (L : Nat) (home : String)
    (interval : Nat) (st : LoopState) (h : st.isShuttingDown = true) :
    ∀ fs, runLoop env L home interval st fs = st := by
  intro fs
  cases fs with
  | nil => rfl
  | cons f fs => simp [runLoop, h]

lemma runLoop_all_errors (env : PublisherEnv) (L : Nat) (home : String)
    (interval : Nat) :
    ∀ (fetches : List (Except String (List IMessageData))) (st : LoopState),
      (∀ f ∈ fetches, ∃ s, f = Except.error s) →
      st.isShuttingDown = false → 1 ≤ fetches.length →
      maxConsecutiveErrors ≤ st.consecutiveErrors + fetches.length →
      (runLoop env L home interval st fetches).isShuttingDown = true := by
  intro fetches
  induction fetches with
  | nil =>
    intro st _ _ h1 _
    simp at h1
  | cons f fs ih =>
    intro st herrs hsd _ hce
    obtain ⟨s, hf⟩ := herrs f (List.mem_cons_self f fs)
    subst hf
    simp only [runLoop, hsd, Bool.false_eq_true, if_false]
    by_cases hth : maxConsecutiveErrors ≤ st.consecutiveErrors + 1
    · have hshut : (runCycle env L home interval st (Except.error s)).state.isShuttingDown = true := by
        simp [runCycle, hth]
      rw [runLoop_of_shutdown env L home interval _ hshut fs]
      exact hshut
    · have hsd2 : (runCycle env L home interval st (Except.error s)).state.isShuttingDown = false := by
        simp [runCycle, hth, hsd]
      have hce2 : (runCycle env L home interval st (Except.error s)).state.consecutiveErrors
          = st.consecutiveErrors + 1 := by
        simp [runCycle]
      have hlen : 1 ≤ fs.length := by
        simp only [List.length_cons] at hce
        simp only [maxConsecutiveErrors] at hce hth
        omega
      apply ih _ (fun g hg => herrs g (List.mem_cons_of_mem _ hg)) hsd2 hlen
      rw [hce2]
      simp only [List.length_cons] at hce
      simp only [maxConsecutiveErrors] at hce ⊢
      omega

lemma reachable_failed_subset (c : MessageCache) (h : ReachableCache c) :
    c.failedIds ⊆ c.processedIds := by
  induction h with
  | empty => simp [MessageCache.empty]
  | markProcessed c2 id hr ih =>
    intro x hx
    simp only [MessageCache.markProcessed] at hx ⊢
    exact Finset.mem_insert_of_mem (ih (Finset.mem_of_mem_erase hx))
  | markFailed c2 id hr ih =>
    intro x hx
    simp only [MessageCache.markFailed] at hx ⊢
    rcases Finset.mem_insert.mp hx with hx | hx
    · rw [hx]
      exact Finset.mem_insert_self _ _
    · exact Finset.mem_insert_of_mem (ih hx)

/-! ## Claim theorems -/

/-- C1: for every record id already resolved in the ledger
(`isProcessed id = true`), a poll cycle that re-fetches that record never
touches it: `getNewMessages` excludes the id from the returned batch, and
no event of the cycle's batch processing — in particular no `uploadMedia`
and no `postTweet` publisher call — carries that record id. -/
theorem claim_C1_resolved_record_skipped (cache : MessageCache)
    (rows : List MessageRow) (atts : Nat → List Attachment)
    (env : PublisherEnv) (L : Nat) (home : String) (id : Nat)
    (h : cache.isProcessed id = true) :
    id ∉ (getNewMessages cache rows atts).map IMessageData.id
    ∧ ∀ e ∈ (processBatch env L home cache (getNewMessages cache rows atts)).events,
        e.rid ≠ id := by
  refine ⟨getNewMessages_excludes_resolved cache rows atts id h, ?_⟩
  intro e he heq
  have h1 := processBatch_events_rid_mem env L home _ cache e he
  rw [heq] at h1
  exact getNewMessages_excludes_resolved cache rows atts id h h1

/-- Witness for C1: record 7 is resolved, re-fetching a window containing
row 7 returns a batch without it. -/
theorem claim_C1_resolved_record_skipped_witness :
    (MessageCache.empty.markProcessed 7).isProcessed 7 = true
    ∧ 7 ∉ (getNewMessages (MessageCache.empty.markProcessed 7) rowsWithSeven
        (fun _ => [])).map IMessageData.id := by
  have h : (MessageCache.empty.markProcessed 7).isProcessed 7 = true := by decide
  exact ⟨h, (claim_C1_resolved_record_skipped (MessageCache.empty.markProcessed 7)
    rowsWithSeven (fun _ => []) okEnv 280 homeDir 7 h).1⟩

/-- C2: when the `postTweet` call for a record throws, the catch block
calls `markAsFailed` on the record's id before moving on; afterwards
`isProcessed` answers true, so every subsequent cycle's `getNewMessages`
filters the record out and it is never retried. -/
theorem claim_C2_post_throw_marks_failed (env : PublisherEnv) (L : Nat)
    (home : String) (cache : MessageCache) (m : IMessageData) (err : String)
    (hv : validateMessage (processMessage L home m) = true)
    (hskip : ¬ (0 < (processMessage L home m).mediaPaths.length
        ∧ (uploadLoop env m.id (processMessage L home m).mediaPaths).2.length = 0
        ∧ (processMessage L home m).text = []))
    (herr : env.postTweet (processMessage L home m).text
        (postArgs (uploadLoop env m.id (processMessage L home m).mediaPaths).2)
      = Except.error err) :
    Event.postTweet m.id (processMessage L home m).text
        (postArgs (uploadLoop env m.id (processMessage L home m).mediaPaths).2)
      ∈ (processRecord env L home cache m).events
    ∧ Event.markAsFailed m.id ∈ (processRecord env L home cache m).events
    ∧ (processRecord env L home cache m).cache = cache.markFailed m.id
    ∧ (processRecord env L home cache m).cache.isProcessed m.id = true
    ∧ ∀ (rows : List MessageRow) (atts : Nat → List Attachment),
        m.id ∉ (getNewMessages (processRecord env L home cache m).cache rows
          atts).map IMessageData.id := by
  have hrec : processRecord env L home cache m =
      { events := (uploadLoop env m.id (processMessage L home m).mediaPaths).1
          ++ [Event.postTweet m.id (processMessage L home m).text
                (postArgs (uploadLoop env m.id (processMessage L home m).mediaPaths).2),
              Event.markAsFailed m.id],
        cache := cache.markFailed m.id, posted := false } := by
    simp only [processRecord, hv, hskip, herr, if_true, if_false]
  rw [hrec]
  refine ⟨by simp, by simp, rfl, ?_, ?_⟩
  · simp [MessageCache.markFailed, MessageCache.isProcessed]
  · intro rows atts
    exact getNewMessages_excludes_resolved _ rows atts m.id
      (by simp [MessageCache.markFailed, MessageCache.isProcessed])

/-- Witness for C2: posting the two-character message throws, the record
is marked failed and resolved. -/
theorem claim_C2_post_throw_marks_failed_witness :
    validateMessage (processMessage 280 homeDir msgHi) = true
    ∧ Event.markAsFailed msgHi.id
        ∈ (processRecord envPostFails 280 homeDir MessageCache.empty msgHi).events
    ∧ (processRecord envPostFails 280 homeDir
        MessageCache.empty msgHi).cache.isProcessed msgHi.id = true := by
  have h := claim_C2_post_throw_marks_failed envPostFails 280 homeDir
    MessageCache.empty msgHi "403" (by decide) (by decide) rfl
  exact ⟨by decide, h.2.1, h.2.2.2.1⟩

/-- C3 counterexample: with two unresolved records fetched newest-first
(dates 20 then 10) and an all-success environment, the poll cycle posts
record 2 (the newer) before record 1 (the older): the posted-id sequence
is `[2, 1]`, not the `[1, 2]` that the claimed oldest-first reversal
would give — the orchestrator does not reverse the batch. -/
theorem claim_C3_counterexample :
    postedIds (processBatch okEnv 280 homeDir MessageCache.empty
      (getNewMessages MessageCache.empty rowsNewestFirst (fun _ => []))).events = [2, 1]
    ∧ rowsNewestFirst.map MessageRow.date = [20, 10]
    ∧ ¬ postedIds (processBatch okEnv 280 homeDir MessageCache.empty
      (getNewMessages MessageCache.empty rowsNewestFirst (fun _ => []))).events = [1, 2] := by
  decide

/-- C3 amended: the orchestrator processes the batch in fetch order with
no reversal, so the records are posted newest-first within a batch: the
sequence of posted record ids of a cycle is a sublist of the fetched
(newest-first) row-id sequence. -/
theorem claim_C3_amended_fetch_order (env : PublisherEnv) (L : Nat)
    (home : String) (cache : MessageCache) (rows : List MessageRow)
    (atts : Nat → List Attachment) :
    List.Sublist
      (postedIds (processBatch env L home cache (getNewMessages cache rows atts)).events)
      (rows.map MessageRow.rowid) :=
  (postedIds_processBatch_sublist env L home _ cache).trans
    (getNewMessages_ids_sublist cache rows atts)

/-- C4 counterexample: a cycle whose fetch succeeds (empty batch, nothing
posted) leaves the consecutive-failure counter at 3 instead of resetting
it to 0; consequently the run fail, fail, fail, ok-empty, fail, fail
shuts the loop down even though no 5 consecutive fetch failures occurred
since the last successful cycle. -/
theorem claim_C4_counterexample :
    (runCycle okEnv 280 homeDir 3000 ⟨3, false, MessageCache.empty⟩
      (Except.ok [])).state.consecutiveErrors = 3
    ∧ (runLoop okEnv 280 homeDir 3000 freshState
        [Except.error "e", Except.error "e", Except.error "e", Except.ok [],
         Except.error "e", Except.error "e"]).isShuttingDown = true := by
  decide

/-- C4 amended: 5 consecutive fetch failures always drive the loop into
shutdown; the consecutive-failure counter is reset to 0 by a cycle only
when some record was successfully posted in it (a successful cycle with
no posted record leaves the counter unchanged); after a fetch failure the
sleep for that cycle is `interval * 2`, and `interval` after a normal
cycle. -/
theorem claim_C4_amended_failure_guard (env : PublisherEnv) (L : Nat)
    (home : String) (interval : Nat) (st : LoopState)
    (fetches : List (Except String (List IMessageData)))
    (hsd : st.isShuttingDown = false)
    (hlen : fetches.length = 5)
    (herrs : ∀ f ∈ fetches, ∃ s, f = Except.error s) :
    (runLoop env L home interval st fetches).isShuttingDown = true
    ∧ (∀ batch, (runCycle env L home interval st (Except.ok batch)).state.consecutiveErrors
        = if (processBatch env L home st.cache batch).anyPosted = true then 0
          else st.consecutiveErrors)
    ∧ (∀ s, (runCycle env L home interval st (Except.error s)).sleepMs = interval * 2)
    ∧ (∀ batch, (runCycle env L home interval st (Except.ok batch)).sleepMs = interval) := by
  refine ⟨?_, fun batch => rfl, fun s => rfl, fun batch => rfl⟩
  apply runLoop_all_errors env L home interval fetches st herrs hsd
  · omega
  · simp only [maxConsecutiveErrors, hlen]
    omega

/-- Witness for C4 amended: from the fresh state, five consecutive fetch
failures shut the loop down. -/
theorem claim_C4_amended_failure_guard_witness :
    freshState.isShuttingDown = false
    ∧ fiveErrors.length = 5
    ∧ (∀ f ∈ fiveErrors, ∃ s, f = Except.error s)
    ∧ (runLoop okEnv 280 homeDir 3000 freshState fiveErrors).isShuttingDown = true := by
  have h1 : freshState.isShuttingDown = false := rfl
  have h2 : fiveErrors.length = 5 := rfl
  have h3 : ∀ f ∈ fiveErrors, ∃ s, f = Except.error s := by
    intro f hf
    have hf2 : f ∈ List.replicate 5
        (Except.error "db locked" : Except String (List IMessageData)) := hf
    rw [List.eq_of_mem_replicate hf2]
    exact ⟨"db locked", rfl⟩
  exact ⟨h1, h2, h3, (claim_C4_amended_failure_guard okEnv 280 homeDir 3000
    freshState fiveErrors h1 h2 h3).1⟩

/-- C5: with a positive configured `maxLength`, if the trimmed raw text is
longer than `maxLength` then `processMessage` produces text of length at
most `maxLength` ending in the truncation marker with
`wasTruncated = true`; if the trimmed text fits, the text is exactly the
trimmed raw text and `wasTruncated = false`. -/
theorem claim_C5_truncation (maxLength : Nat) (home : String)
    (m : IMessageData) (h : 0 < maxLength) :
    (maxLength < (jsTrim (m.text.getD [])).length →
       (processMessage maxLength home m).text.length ≤ maxLength
       ∧ List.IsSuffix truncationMarker (processMessage maxLength home m).text
       ∧ (processMessage maxLength home m).wasTruncated = true)
    ∧ ((jsTrim (m.text.getD [])).length ≤ maxLength →
       (processMessage maxLength home m).text = jsTrim (m.text.getD [])
       ∧ (processMessage maxLength home m).wasTruncated = false) := by
  constructor
  · intro hlen
    have htext : (processMessage maxLength home m).text
        = (jsTrim (m.text.getD [])).take (maxLength - 1) ++ truncationMarker := by
      simp only [processMessage]
      rw [if_pos hlen]
    have hw : (processMessage maxLength home m).wasTruncated = true := by
      simp only [processMessage]
      rw [if_pos hlen]
    refine ⟨?_, ?_, hw⟩
    · rw [htext]
      simp only [List.length_append, List.length_take, truncationMarker,
        List.length_cons, List.length_nil]
      omega
    · rw [htext]
      exact List.suffix_append _ _
  · intro hlen
    have hnlt : ¬ maxLength < (jsTrim (m.text.getD [])).length := not_lt.mpr hlen
    constructor
    · simp only [processMessage]
      rw [if_neg hnlt]
    · simp only [processMessage]
      rw [if_neg hnlt]

/-- Witness for C5: `maxLength = 10` with a 15-character text truncates to
length at most 10 ending in the marker; a 5-character text is returned
unchanged. -/
theorem claim_C5_truncation_witness :
    (processMessage 10 homeDir msgFifteenChars).text.length ≤ 10
    ∧ List.IsSuffix truncationMarker (processMessage 10 homeDir msgFifteenChars).text
    ∧ (processMessage 10 homeDir msgFifteenChars).wasTruncated = true
    ∧ (processMessage 10 homeDir msgFiveChars).text = jsTrim (msgFiveChars.text.getD [])
    ∧ (processMessage 10 homeDir msgFiveChars).wasTruncated = false := by
  have h1 := (claim_C5_truncation 10 homeDir msgFifteenChars (by decide)).1 (by decide)
  have h2 := (claim_C5_truncation 10 homeDir msgFiveChars (by decide)).2 (by decide)
  exact ⟨h1.1, h1.2.1, h1.2.2, h2.1, h2.2⟩

/-- C6 counterexample: a record with 6 attachments of an unsupported MIME
type yields an empty `mediaPaths`, not the attachments' 6 resolved paths
capped to 4 — `extractMediaPaths` keeps only supported image attachments,
so the claim's unconditional reading of "a record with 6 attachments
yields mediaPaths.length == 4" is false. -/
theorem claim_C6_counterexample :
    msgSixPdfs.attachments.length = 6
    ∧ (processMessage 280 homeDir msgSixPdfs).mediaPaths = []
    ∧ ¬ (processMessage 280 homeDir msgSixPdfs).mediaPaths.length = 4 := by
  decide

/-- C6 amended: `mediaPaths` is the list of resolved paths of the
attachments with a supported image MIME type and an available path, in
source order, capped to the first 4; so it never exceeds 4, six
supported attachments give exactly 4, and every `uploadMedia` call of the
record's processing takes its source path from that capped list — the
dropped attachments are never uploaded. -/
theorem claim_C6_amended_media_capping (env : PublisherEnv) (L : Nat)
    (home : String) (cache : MessageCache) (m : IMessageData) :
    (processMessage L home m).mediaPaths = (extractMediaPaths home m).take 4
    ∧ (processMessage L home m).mediaPaths.length ≤ 4
    ∧ ((extractMediaPaths home m).length = 6 →
        (processMessage L home m).mediaPaths.length = 4)
    ∧ (∀ r src up,
        Event.uploadMedia r src up ∈ (processRecord env L home cache m).events →
        src ∈ (processMessage L home m).mediaPaths) := by
  have h1 : (processMessage L home m).mediaPaths = (extractMediaPaths home m).take 4 := by
    simp only [processMessage]
    split
    · rfl
    · next hnot =>
      rw [List.take_of_length_le (by omega)]
  refine ⟨h1, ?_, ?_, ?_⟩
  · rw [h1]
    simp only [List.length_take]
    omega
  · intro h6
    rw [h1]
    simp only [List.length_take, h6]
    omega
  · intro r src up he
    simp only [processRecord] at he
    split at he
    · split at he
      · simp only [List.mem_append, List.mem_cons, List.not_mem_nil, or_false] at he
        rcases he with he | he
        · exact uploadLoop_src_mem env m.id _ r src up he
        · simp at he
      · split at he
        · simp only [List.mem_append, List.mem_cons, List.not_mem_nil, or_false] at he
          rcases he with he | he | he
          · exact uploadLoop_src_mem env m.id _ r src up he
          · simp at he
          · simp at he
        · simp only [List.mem_append, List.mem_cons, List.not_mem_nil, or_false] at he
          rcases he with he | he | he
          · exact uploadLoop_src_mem env m.id _ r src up he
          · simp at he
          · simp at he
    · simp at he

/-- Witness for C6 amended: six supported picture attachments give exactly
4 media paths. -/
theorem claim_C6_amended_media_capping_witness :
    (extractMediaPaths homeDir msgSixPngs).length = 6
    ∧ (processMessage 280 homeDir msgSixPngs).mediaPaths.length = 4 :=
  ⟨by decide, (claim_C6_amended_media_capping okEnv 280 homeDir
    MessageCache.empty msgSixPngs).2.2.1 (by decide)⟩

/-- C7: a record whose processed form has empty text and no media paths
fails validation, the publisher adapter is never invoked for it, and the
ledger receives exactly one resolving call — `markAsProcessed` — so the
record is resolved and never retried. -/
theorem claim_C7_empty_record_skipped (env : PublisherEnv) (L : Nat)
    (home : String) (cache : MessageCache) (m : IMessageData)
    (htext : (processMessage L home m).text = [])
    (hmedia : (processMessage L home m).mediaPaths = []) :
    validateMessage (processMessage L home m) = false
    ∧ (processRecord env L home cache m).events = [Event.markAsProcessed m.id]
    ∧ (processRecord env L home cache m).cache = cache.markProcessed m.id
    ∧ (processRecord env L home cache m).cache.isProcessed m.id = true := by
  have hval : validateMessage (processMessage L home m) = false := by
    simp [validateMessage, htext, hmedia]
  have hrec : processRecord env L home cache m =
      { events := [Event.markAsProcessed m.id],
        cache := cache.markProcessed m.id, posted := false } := by
    simp [processRecord, hval]
  rw [hrec]
  exact ⟨hval, rfl, rfl,
    by simp [MessageCache.markProcessed, MessageCache.isProcessed]⟩

/-- Witness for C7: the message with no text and no attachments. -/
theorem claim_C7_empty_record_skipped_witness :
    (processMessage 280 homeDir msgEmpty).text = []
    ∧ (processMessage 280 homeDir msgEmpty).mediaPaths = []
    ∧ validateMessage (processMessage 280 homeDir msgEmpty) = false
    ∧ (processRecord okEnv 280 homeDir MessageCache.empty msgEmpty).events
        = [Event.markAsProcessed msgEmpty.id] := by
  have h := claim_C7_empty_record_skipped okEnv 280 homeDir
    MessageCache.empty msgEmpty (by decide) (by decide)
  exact ⟨by decide, by decide, h.1, h.2.1⟩

/-- C8: attachments are handled independently — the collected media ids
are exactly the uploads where conversion and upload both succeeded (a
failing attachment is skipped, never aborting the record); any `postTweet`
call of the record's processing carries the processed text and exactly
those collected ids; and the record always ends the cycle resolved in the
ledger. -/
theorem claim_C8_partial_upload_tolerance (env : PublisherEnv) (L : Nat)
    (home : String) (cache : MessageCache) (m : IMessageData)
    (hatt : m.attachments ≠ []) :
    (uploadLoop env m.id (processMessage L home m).mediaPaths).2
      = uploadSuccesses env (processMessage L home m).mediaPaths
    ∧ (∀ t mids,
        Event.postTweet m.id t mids ∈ (processRecord env L home cache m).events →
        t = (processMessage L home m).text
        ∧ mids = postArgs (uploadSuccesses env (processMessage L home m).mediaPaths))
    ∧ (processRecord env L home cache m).cache.isProcessed m.id = true := by
  refine ⟨uploadLoop_snd env m.id _, ?_,
    processRecord_cache_resolved env L home cache m⟩
  intro t mids he
  simp only [processRecord] at he
  split at he
  · split at he
    · simp only [List.mem_append, List.mem_cons, List.not_mem_nil, or_false] at he
      rcases he with he | he
      · exact absurd he (uploadLoop_no_post env m.id _ m.id t mids)
      · simp at he
    · split at he
      · simp only [List.mem_append, List.mem_cons, List.not_mem_nil, or_false] at he
        rcases he with he | he | he
        · exact absurd he (uploadLoop_no_post env m.id _ m.id t mids)
        · simp only [Event.postTweet.injEq] at he
          refine ⟨he.2.1, ?_⟩
          rw [he.2.2, uploadLoop_snd env m.id _]
        · simp at he
      · simp only [List.mem_append, List.mem_cons, List.not_mem_nil, or_false] at he
        rcases he with he | he | he
        · exact absurd he (uploadLoop_no_post env m.id _ m.id t mids)
        · simp only [Event.postTweet.injEq] at he
          refine ⟨he.2.1, ?_⟩
          rw [he.2.2, uploadLoop_snd env m.id _]
        · simp at he
  · simp at he

/-- Witness for C8: three picture attachments with the second upload
failing give exactly 2 collected media references and a resolved
record. -/
theorem claim_C8_partial_upload_tolerance_witness :
    msgThreePics.attachments ≠ []
    ∧ (uploadSuccesses envFailSecondUpload
        (processMessage 280 homeDir msgThreePics).mediaPaths).length = 2
    ∧ (processRecord envFailSecondUpload 280 homeDir
        MessageCache.empty msgThreePics).cache.isProcessed msgThreePics.id = true := by
  have h := claim_C8_partial_upload_tolerance envFailSecondUpload 280 homeDir
    MessageCache.empty msgThreePics (by decide)
  exact ⟨by decide, by decide, h.2.2⟩

/-- C9: for every cache state reachable by `markProcessed` / `markFailed`
calls, saving it and loading the saved data in a fresh instance yields
identical `isProcessed` answers for every id. -/
theorem claim_C9_ledger_roundtrip (c : MessageCache) (h : ReachableCache c)
    (now : String) (id : Nat) :
    (MessageCache.loadFrom (c.save now)).isProcessed id = c.isProcessed id := by
  simp [MessageCache.save, MessageCache.loadFrom, MessageCache.isProcessed,
    Finset.sort_toFinset]

/-- Witness for C9: the sample cache (record 1 posted, record 2 failed)
round-trips its answer for id 2. -/
theorem claim_C9_ledger_roundtrip_witness :
    ReachableCache sampleCache
    ∧ (MessageCache.loadFrom (sampleCache.save "2026-10-11T00:00:00Z")).isProcessed 2
        = sampleCache.isProcessed 2 := by
  have hr : ReachableCache sampleCache :=
    ReachableCache.markFailed _ 2 (ReachableCache.markProcessed _ 1 ReachableCache.empty)
  exact ⟨hr, claim_C9_ledger_roundtrip sampleCache hr "2026-10-11T00:00:00Z" 2⟩

/-- C10: `markFailed` inserts the id into both the failed and the
processed set and `markProcessed` removes the id from the failed set;
hence on every reachable cache the failed set is a subset of the
processed set, `isProcessed` answers true after either kind of mark call,
and `getProcessedCount` (the processed set's size) also counts the
records that only ever failed — it is not a count of successful posts
alone. -/
theorem claim_C10_cache_invariants (c : MessageCache) (h : ReachableCache c)
    (id : Nat) :
    (c.markFailed id).failedIds = insert id c.failedIds
    ∧ (c.markFailed id).processedIds = insert id c.processedIds
    ∧ (c.markProcessed id).failedIds = c.failedIds.erase id
    ∧ c.failedIds ⊆ c.processedIds
    ∧ (c.markProcessed id).isProcessed id = true
    ∧ (c.markFailed id).isProcessed id = true
    ∧ c.getFailedCount ≤ c.getProcessedCount := by
  refine ⟨rfl, rfl, rfl, reachable_failed_subset c h, ?_, ?_, ?_⟩
  · simp [MessageCache.markProcessed, MessageCache.isProcessed]
  · simp [MessageCache.markFailed, MessageCache.isProcessed]
  · exact Finset.card_le_card (reachable_failed_subset c h)

/-- Witness for C10: the sample cache satisfies the subset and counting
facts, and a fresh mark call resolves its id. -/
theorem claim_C10_cache_invariants_witness :
    ReachableCache sampleCache
    ∧ sampleCache.getFailedCount ≤ sampleCache.getProcessedCount
    ∧ (sampleCache.markFailed 9).isProcessed 9 = true := by
  have hr : ReachableCache sampleCache :=
    ReachableCache.markFailed _ 2 (ReachableCache.markProcessed _ 1 ReachableCache.empty)
  have h := claim_C10_cache_invariants sampleCache hr 9
  exact ⟨hr, h.2.2.2.2.2.2, h.2.2.2.2.2.1⟩

end Textweet
